import Mathlib

/-!
Shallow embedding of the core logic of `wildstar_addon_updater.py`
(KalleV/WSAddonUpdater): addon-name normalization, the camel-case search-term
derivation, the `Addon` record constructor, the update-decision function
`Downloader._update_required`, the `AddonSearch` resolver with its positive
and negative caches, the `AddonSearch.run` search worker, the `Downloader.run`
install worker, and the `Config` persistent store.

Machine values are modelled with `String`/`Int`; the HTTP and HTML-scraping
collaborators are oracles passed in as function parameters; fallible Python
code is modelled with `Option`/`Except`, and an exception escaping a worker
loop is modelled as an explicit outcome field.
-/

namespace WSAU

/-! ### Character classes used by the regexes in the source -/

def isUpperChar (c : Char) : Bool :=
  decide ('A' ≤ c) && decide (c ≤ 'Z')

def isLowerChar (c : Char) : Bool :=
  decide ('a' ≤ c) && decide (c ≤ 'z')

def isDigitChar (c : Char) : Bool :=
  decide ('0' ≤ c) && decide (c ≤ '9')

/-- The character class `[a-zA-Z0-9]` of `convert_addon_name`. -/
def isAlnumChar (c : Char) : Bool :=
  isUpperChar c || isLowerChar c || isDigitChar c

/-- The character class `[a-z0-9]` used by the camel-case regexes. -/
def isLowerDigitChar (c : Char) : Bool :=
  isLowerChar c || isDigitChar c

/-!
### `convert_addon_name`

`re.sub(r'[^a-zA-Z0-9]', '', name.strip())`: every character outside
`[a-zA-Z0-9]` is removed (the leading `strip()` only removes whitespace,
which the substitution removes as well).
-/

def convert_addon_name (s : String) : String :=
  ⟨s.data.filter isAlnumChar⟩

/-! ### `' '.join` and `''.join` -/

/-- Python `sep.join(fragments)`. -/
def joinSep (sep : String) : List String → String
  | [] => ""
  | [s] => s
  | s :: rest => s ++ sep ++ joinSep sep rest

/-!
### The camel-case fragment extraction

`re.findall(r'[A-Z]{1}[a-z0-9]+', addon_name)`: scanning left to right, each
non-overlapping match is one uppercase letter followed by a maximal nonempty
run of `[a-z0-9]` characters.  The recursion is fuelled by the string length,
which suffices because every step consumes at least one character.
-/

def camelFragsAux : Nat → List Char → List String
  | 0, _ => []
  | _ + 1, [] => []
  | fuel + 1, c :: rest =>
    if isUpperChar c then
      match rest with
      | [] => []
      | d :: rest2 =>
        if isLowerDigitChar d then
          (⟨c :: d :: rest2.takeWhile isLowerDigitChar⟩ : String) ::
            camelFragsAux fuel (rest2.dropWhile isLowerDigitChar)
        else camelFragsAux fuel rest
    else camelFragsAux fuel rest

def camelFrags (s : String) : List String :=
  camelFragsAux s.data.length s.data

/-- `AddonSearch._split_by_camel_case`: the fragments joined by spaces. -/
def split_by_camel_case (s : String) : String :=
  joinSep " " (camelFrags s)

/-- `AddonSearch._remove_last_word`: all fragments but the last, joined by
the empty string (note: `''.join`, not `' '.join`). -/
def remove_last_word (s : String) : String :=
  joinSep "" (camelFrags s).dropLast

/-- There is a capital-letter-initiated run of `[a-z0-9]` characters, i.e.
the regex `[A-Z][a-z0-9]+` has a match: some uppercase character is
immediately followed by a lower/digit character. -/
def hasCapRunL : List Char → Bool
  | [] => false
  | [_] => false
  | c :: d :: rest =>
    (isUpperChar c && isLowerDigitChar d) || hasCapRunL (d :: rest)

/-! ### The `Addon` record (`Addon.__init__`) -/

def ADDON_DL_SUFFIX : String := "/files/latest"

structure Addon where
  name : String
  url : String
  full_url : String
  date : Int
deriving DecidableEq, Repr

/--
`Addon.__init__(name, url, epoch_date)`:
raises `ValueError` when any argument is falsy (empty string / zero);
normalizes the name with `convert_addon_name`; the `assert
re.match(r'[a-zA-Z0-9]+', self._name)` fails exactly when the normalized
name is empty (the normalized name contains only alphanumerics, and the
anchored match succeeds iff it is nonempty); stores the url, the url with
the download suffix appended, and the integer date.
-/
def Addon.make (name url : String) (epoch_date : Int) : Except String Addon :=
  if name = "" ∨ url = "" ∨ epoch_date = 0 then
    Except.error "invalid arguments passed to Addon constructor"
  else
    if convert_addon_name name = "" then
      Except.error "invalid name format"
    else
      Except.ok ⟨convert_addon_name name, url, url ++ ADDON_DL_SUFFIX, epoch_date⟩

def isErr : Except String Addon → Bool
  | Except.error _ => true
  | Except.ok _ => false

/-! ### `Downloader._update_required` -/

/--
The update-decision function, with its three inputs injected directly
(the stored record from the config, the resolved online addon, and the
local directory creation time):

    if not installed_addon or (installed_addon.get_date() == online_addon.get_date()):
        return True
    if self._directory_creation_date(addon_name) < online_addon.get_date():
        return True
    return False
-/
def update_required (installed : Option Addon) (online : Addon) (ctime : Int) : Bool :=
  match installed with
  | none => true
  | some a =>
    if a.date = online.date then true
    else if ctime < online.date then true
    else false

/-! ### String utilities for `AddonSearch._make_full_url_from` -/

/-- Is `p` a leading pattern of `l`? -/
def leadsL : List Char → List Char → Bool
  | [], _ => true
  | _ :: _, [] => false
  | p :: ps, c :: cs => p = c && leadsL ps cs

/-- Python `str.replace(pat, rep)`: replace every non-overlapping occurrence,
scanning left to right.  Fuelled by the length of the scanned list; every
step consumes at least one character (the pattern used in the source,
`"/wildstar/"`, is nonempty). -/
def replaceAllAux (pat rep : List Char) : Nat → List Char → List Char
  | 0, l => l
  | _ + 1, [] => []
  | fuel + 1, c :: cs =>
    if leadsL pat (c :: cs) then
      rep ++ replaceAllAux pat rep fuel ((c :: cs).drop pat.length)
    else
      c :: replaceAllAux pat rep fuel cs

def strReplace (s pat rep : String) : String :=
  ⟨replaceAllAux pat.data rep.data s.data.length s.data⟩

def strLeads (p s : String) : Bool :=
  leadsL p.data s.data

/-- The authority part of an http url: `"http://" ++ host` with the host
running up to the first `/`.  Used to model `urllib.parse.urljoin` below. -/
def hostOf (base : String) : String :=
  if strLeads "http://" base then
    "http://" ++ ⟨(base.data.drop 7).takeWhile (fun c => decide (c ≠ '/'))⟩
  else base

/-- Models `urllib.parse.urljoin(base, rel)` for the href shapes the catalog
markup produces: absolute urls are kept, absolute paths are resolved against
the authority of the base, and relative paths are appended to the base
(whose path component is `/` for the fixed base used by the source). -/
def urljoin (base rel : String) : String :=
  if rel = "" then base
  else if strLeads "http://" rel || strLeads "https://" rel then rel
  else if strLeads "/" rel then hostOf base ++ rel
  else base ++ rel

def BASE_CURSE_URL : String := "http://www.curse.com/search/ws-addons"

def BASE_URL_CURSEFORGE : String := "http://wildstar.curseforge.com/"

/-- `AddonSearch._remove_page`: `url.replace('/wildstar/', '/')`. -/
def remove_page (url : String) : String :=
  strReplace url "/wildstar/" "/"

/-- `AddonSearch._make_full_url_from`. -/
def make_full_url_from (href : String) : String :=
  urljoin BASE_URL_CURSEFORGE (remove_page href)

/-!
### The `AddonSearch` resolver

The scraping collaborators are oracles:
* `termOrder name` is the iteration order of the Python set
  `{addon_name, split_by_camel_case(addon_name), remove_last_word(addon_name)}`
  (sets are unordered, so the order is a parameter);
* `fetchSearch term` models `http_request(BASE_CURSE_URL, params={search:term})`
  composed with the page parse: `none` is a failed or timed-out request
  (`http_request` returns `None`), otherwise the page carries whether the
  no-results marker is absent and the first `tr.wildstar` row link
  (its display text and its href), if any;
* `fetchDetail url` models `_find_addon_date(url)`: `none` when the request
  fails or the page lacks a usable `data-epoch` value, otherwise the epoch.
-/

structure PageData where
  hasResults : Bool
  firstLink : Option (String × String)
deriving DecidableEq, Repr

structure Env where
  termOrder : String → List String
  fetchSearch : String → Option PageData
  fetchDetail : String → Option Int

/-- The per-instance state of `AddonSearch`: the negative cache
`_no_results_found` (a set of names), the positive cache `_retrieved_addons`
(keyed by the converted remote name at insertion), and the warning queue
contents contributed so far (modelled by the addon names warned about). -/
structure SearchState where
  no_results_found : List String
  retrieved_addons : List (String × Addon)
  warnings : List String
deriving DecidableEq, Repr

def SearchState.empty : SearchState := ⟨[], [], []⟩

/-- The outcome of one `find` call: the returned addon (or `None`), the
updated resolver state, the search terms actually requested against the
search endpoint, and the detail-page urls actually fetched. -/
structure FindResult where
  addon : Option Addon
  state : SearchState
  searchReqs : List String
  detailReqs : List String
deriving DecidableEq, Repr

/-- `AddonSearch._no_results_found_with(addon_name)`. -/
def markNeg (st : SearchState) (name : String) : SearchState :=
  { st with no_results_found := name :: st.no_results_found }

/-- The shared failure tail of `_search_online`: mark the negative cache and
put a warning ("Unable to find ... on Curse.") on the warning queue. -/
def noResult (name : String) (st : SearchState) (sreqs dreqs : List String) :
    FindResult :=
  ⟨none,
   { st with no_results_found := name :: st.no_results_found,
             warnings := name :: st.warnings },
   sreqs, dreqs⟩

/--
`AddonSearch._search_request`, iterating the given term order:

    for search_term in search_terms:
        if search_term:
            page = http_request(self.BASE_CURSE_URL, url_params)
            results = self._results_found_on(page)
            return page if results else self._no_results_found_with(addon_name)

Empty terms are skipped; the first nonempty term is requested and the loop
returns unconditionally.  `_results_found_on(None)` raises inside its `try`
and the handler returns `True`, so a failed request returns the `None` page;
a no-results page marks the negative cache and returns `None`.
Returns (returned page, state, requested terms).
-/
def searchRequestAux (fetch : String → Option PageData) (name : String)
    (st : SearchState) : List String → Option PageData × SearchState × List String
  | [] => (none, st, [])
  | t :: ts =>
    if t = "" then searchRequestAux fetch name st ts
    else
      match fetch t with
      | none => (none, st, [t])
      | some pd =>
        if pd.hasResults then (some pd, st, [t])
        else (none, markNeg st name, [t])

/--
`AddonSearch._search_online`: issue the search request; if a page came back,
scrape the first row (`_find_addon_info_on`): the converted display name, the
full url built from the href, and the date fetched from the detail page; if
all three are truthy, build the `Addon` and store it in the positive cache
under the converted remote name; otherwise mark the negative cache and warn.
The `Except.error` branch of `Addon.make` is unreachable here (the converted
name is nonempty and already normalized) and is mapped to the no-result tail.
-/
def search_online (env : Env) (name : String) (st : SearchState) : FindResult :=
  match searchRequestAux env.fetchSearch name st (env.termOrder name) with
  | (none, st1, sreqs) => noResult name st1 sreqs []
  | (some pd, st1, sreqs) =>
    match pd.firstLink with
    | none => noResult name st1 sreqs []
    | some li =>
      let n := convert_addon_name li.1
      let u := make_full_url_from li.2
      match env.fetchDetail u with
      | none => noResult name st1 sreqs [u]
      | some d =>
        if n ≠ "" ∧ u ≠ "" ∧ d ≠ 0 then
          match Addon.make n u d with
          | Except.ok a =>
            ⟨some a, { st1 with retrieved_addons := (n, a) :: st1.retrieved_addons },
             sreqs, [u]⟩
          | Except.error _ => noResult name st1 sreqs [u]
        else noResult name st1 sreqs [u]

/--
`AddonSearch.find`:

    if self._no_results_found.get(addon_name):
        return
    addon = self._retrieved_addons.get(addon_name)
    return addon if addon else self._search_online(addon_name)
-/
def find (env : Env) (name : String) (st : SearchState) : FindResult :=
  if name ∈ st.no_results_found then ⟨none, st, [], []⟩
  else
    match st.retrieved_addons.lookup name with
    | some a => ⟨some a, st, [], []⟩
    | none => search_online env name st

/-- The positive-cache invariant the code maintains: every entry is keyed by
the name of the addon it stores. -/
def StateWF (st : SearchState) : Prop :=
  ∀ p ∈ st.retrieved_addons, p.1 = p.2.name

instance (st : SearchState) : Decidable (StateWF st) :=
  inferInstanceAs (Decidable (∀ p ∈ st.retrieved_addons, p.1 = p.2.name))

/-! ### The search worker `AddonSearch.run` -/

/-- What one run of the search worker contributes: the work items put on the
task queue (in order), the progress messages (modelled by the names searched
for, in order), and the final resolver state. -/
structure RunResult where
  tasks : List (String × Addon)
  messages : List String
  state : SearchState
deriving DecidableEq, Repr

/--
`AddonSearch.run`: for each locally installed addon name, in listing order,
put a progress message, call `find`, and put a work item
`Message(current_addon=addon, online_addon=online_addon)` on the task queue
exactly when `find` returned an addon.  No other condition is checked before
enqueueing.
-/
def searchRunAux (env : Env) (st : SearchState) : List String → RunResult
  | [] => ⟨[], [], st⟩
  | n :: ns =>
    let r := find env n st
    let rest := searchRunAux env r.state ns
    match r.addon with
    | some a => ⟨(n, a) :: rest.tasks, n :: rest.messages, rest.state⟩
    | none => ⟨rest.tasks, n :: rest.messages, rest.state⟩

/-- The resolution outcomes of a run, threading the resolver state through
`find` in listing order. -/
def resolveAll (env : Env) (st : SearchState) : List String → List (String × Option Addon)
  | [] => []
  | n :: ns =>
    let r := find env n st
    (n, r.addon) :: resolveAll env r.state ns

/-! ### The `Config` persistent store -/

/-- A stored addon record as serialized by `Addon.to_json`:
`{'name': ..., 'url': ..., 'date': ...}`. -/
structure AddonJson where
  name : String
  url : String
  date : Int
deriving DecidableEq, Repr

def Addon.to_json (a : Addon) : AddonJson :=
  ⟨a.name, a.url, a.date⟩

/-- `JsonAddon.__init__`: rebuild an `Addon` from a stored record by calling
the `Addon` constructor on its fields. -/
def JsonAddon (j : AddonJson) : Except String Addon :=
  Addon.make j.name j.url j.date

/-- The decidable characterization of records produced by a successful
`Addon` construction: nonempty normalized name, nonempty url, nonzero date. -/
def AddonJson.wf (j : AddonJson) : Prop :=
  j.name ≠ "" ∧ j.url ≠ "" ∧ j.date ≠ 0 ∧ convert_addon_name j.name = j.name

instance (j : AddonJson) : Decidable j.wf :=
  inferInstanceAs (Decidable (_ ∧ _ ∧ _ ∧ _))

/-- The in-memory `Config` state: the install directory (`config.PATH`,
empty when absent), the `addons` mapping, and a counter of flushes to
durable storage (`Config.encode` calls). -/
structure ConfigState where
  path : String
  addons : List (String × AddonJson)
  writes : Nat
deriving DecidableEq, Repr

/-- Python dict assignment `d[k] = v`: replace the existing entry for the
key, else append. -/
def upsertEntry : List (String × AddonJson) → String → AddonJson →
    List (String × AddonJson)
  | [], k, v => [(k, v)]
  | (k', v') :: rest, k, v =>
    if k' = k then (k, v) :: rest else (k', v') :: upsertEntry rest k v

/-- `Config.update_addon`: store `addon.to_json()` under `addon.get_name()`
and flush (`self.encode()`). -/
def update_addon (cfg : ConfigState) (a : Addon) : ConfigState :=
  { cfg with addons := upsertEntry cfg.addons a.name a.to_json,
             writes := cfg.writes + 1 }

/-- `Config.update_directory`: only a nonempty directory string updates
`config.PATH` and flushes; the empty string does nothing at all. -/
def update_directory (cfg : ConfigState) (d : String) : ConfigState :=
  if d = "" then cfg
  else { cfg with path := d, writes := cfg.writes + 1 }

/-- The key ordering used to model `json.dumps(..., sort_keys=True)`. -/
def keyLE (p q : String × AddonJson) : Prop :=
  p.1 < q.1 ∨ p.1 = q.1

instance : DecidableRel keyLE :=
  fun p q => inferInstanceAs (Decidable (p.1 < q.1 ∨ p.1 = q.1))

/-- The `addons` section of the persisted document: the mapping with keys in
sorted order (`json.dumps(..., sort_keys=True, indent=4)` is deterministic).
Reloading the document (`Config.decode`) yields this mapping back. -/
def encodeAddons (l : List (String × AddonJson)) : List (String × AddonJson) :=
  l.insertionSort keyLE

/-- `Config.get_addons`: wrap every stored record in `JsonAddon`. -/
def get_addons (l : List (String × AddonJson)) :
    List (String × Except String Addon) :=
  l.map fun p => (p.1, JsonAddon p.2)

/-!
### The install worker `Downloader`

`_extract_zipfile` wraps the download and the archive extraction in

    try:
        response = http_request(url)
        with ZipFile(BytesIO(response.content)) as zip_file:
            zip_file.extractall(path=self._addon_directory)
    except (TypeError, BadZipFile) as err:
        log(err)

The module imports `BadZipfile` (lowercase f) from `zipfile`, while the
handler tuple names `BadZipFile`, which is bound neither at module level nor
in the builtins.  Python evaluates the handler tuple only when an exception
reaches the handler, and that evaluation raises `NameError`, which escapes.
-/

inductive PyExc
  | typeError
  | attributeError
  | badZipExc
  | nameError
  | queueEmpty
deriving DecidableEq, Repr

/-- The outcome of the download oracle for one full download url. -/
inductive DlResult
  | ok
  | badZip
  | failed
deriving DecidableEq, Repr

/-- The names the source module binds at top level (imports, constants,
functions, classes) that name resolution would consult for the handler. -/
def pyModuleNames : List String :=
  ["sys", "os", "BytesIO", "ZipFile", "BadZipfile", "BeautifulSoup",
   "SoupStrainer", "requests", "re", "json", "urljoin", "tk", "ttk",
   "filedialog", "messagebox", "threading", "queue", "pytest",
   "CURSEFORGE_ADDON_PAGE", "MAIN_ADDON_PAGE", "APP_TITLE",
   "convert_addon_name", "log", "http_request", "MultiQueue", "Config",
   "Addon", "JsonAddon", "Message", "AddonSearch", "Downloader",
   "DownloaderInterface"]

/-- The builtin exception names relevant here. -/
def pyBuiltinNames : List String :=
  ["TypeError", "ValueError", "AttributeError", "NameError", "KeyError",
   "FileNotFoundError", "Exception"]

def nameResolves (n : String) : Bool :=
  pyModuleNames.contains n || pyBuiltinNames.contains n

/-- The names written in the `except (...)` tuple of `_extract_zipfile`. -/
def exceptClauseNames : List String :=
  ["TypeError", "BadZipFile"]

/-- The exception raised inside the `try` block of `_extract_zipfile`:
a failed download makes `http_request` return `None` and `None.content`
raises `AttributeError`; malformed archive bytes make `ZipFile` raise
`BadZipFile`; a good archive extracts without raising. -/
def tryBlockExc : DlResult → Option PyExc
  | DlResult.ok => none
  | DlResult.failed => some PyExc.attributeError
  | DlResult.badZip => some PyExc.badZipExc

/-- `Downloader._extract_zipfile`: returns the exception escaping the call
(if any) and the entries appended to the error log.  When an exception
reaches the handler, the handler tuple is evaluated first; if one of its
names does not resolve, `NameError` escapes and nothing is logged. -/
def extract_zipfile (r : DlResult) : Option PyExc × List String :=
  match tryBlockExc r with
  | none => (none, [])
  | some e =>
    if exceptClauseNames.all nameResolves then
      if e = PyExc.typeError || e = PyExc.badZipExc then (none, ["zipfile error"])
      else (some e, [])
    else (some PyExc.nameError, [])

/-- One task from the queue: `Message(current_addon=..., online_addon=...)`,
read back with `.get`, which yields `None` for a missing key. -/
structure Task where
  current_addon : Option String
  online_addon : Option Addon
deriving DecidableEq, Repr

/-- The outcome of one `Downloader.run`: the final config, the progress
messages put, the error-log entries written, the exception that escaped the
thread (if any), and the tasks left unprocessed when it escaped. -/
structure DlRunResult where
  config : ConfigState
  messages : List String
  log : List String
  exc : Option PyExc
  remaining : List Task
deriving DecidableEq, Repr

/--
`Downloader.run`: while tasks are available, take one; if both fields are
present, put a progress message, run `_extract_zipfile` on the addon's full
url and then `update_addon`; the loop body is wrapped in
`except queue.Empty: pass`, so only `queue.Empty` lets the loop continue
after an exception — any other escaping exception kills the thread, leaving
the remaining tasks unprocessed.
-/
def downloaderRun (dl : String → DlResult) :
    List Task → ConfigState → List String → List String → DlRunResult
  | [], cfg, msgs, lg => ⟨cfg, msgs, lg, none, []⟩
  | t :: ts, cfg, msgs, lg =>
    match t.current_addon, t.online_addon with
    | some _, some a =>
      let msgs' := msgs ++ ["Downloading " ++ a.name ++ "..."]
      match extract_zipfile (dl a.full_url) with
      | (none, lg') => downloaderRun dl ts (update_addon cfg a) msgs' (lg ++ lg')
      | (some e, lg') =>
        if e = PyExc.queueEmpty then downloaderRun dl ts cfg msgs' (lg ++ lg')
        else ⟨cfg, msgs', lg ++ lg', some e, ts⟩
    | _, _ => downloaderRun dl ts cfg msgs lg

/-!
### Concrete instances

Fixed environments, states and records used to evaluate the embedding at
explicit inputs.  The `termOrder` components are possible iteration orders of
the Python set of derived search terms for the names they are applied to.
-/

/-- A catalog in which only the exact term "Foo" has a results page, whose
first row is the addon "Foo". -/
def env2 : Env :=
  ⟨fun n => [n, remove_last_word n],
   fun t => if t = "Foo" then some ⟨true, some ("Foo", "/ws-addons/wildstar/123-foo")⟩
            else none,
   fun _ => some 100⟩

/-- The entry `env2` resolves "Foo" to. -/
def fooAddon : Addon :=
  ⟨"Foo", "http://wildstar.curseforge.com/ws-addons/123-foo",
   "http://wildstar.curseforge.com/ws-addons/123-foo/files/latest", 100⟩

/-- A stored record for "Foo" with a release timestamp later than the remote
one. -/
def storedFoo : Addon :=
  ⟨"Foo", "http://x/foo", "http://x/foo/files/latest", 200⟩

/-- A catalog whose every search request fails (times out). -/
def env5 : Env :=
  ⟨fun n => [n, remove_last_word n], fun _ => none, fun _ => none⟩

/-- A resolver state whose negative cache already holds "Foo". -/
def stNeg : SearchState := ⟨["Foo"], [], []⟩

/-- A catalog in which the raw term "SpaceStashCore" yields a no-results
page while the camel-case split "Space Stash Core" yields a results page. -/
def env4 : Env :=
  ⟨fun n => [n, split_by_camel_case n, remove_last_word n],
   fun t => if t = "SpaceStashCore" then some ⟨false, none⟩
            else if t = "Space Stash Core" then
              some ⟨true, some ("Space Stash", "/ws-addons/wildstar/39712-space-stash")⟩
            else none,
   fun _ => some 100⟩

/-- A catalog in which the raw term "SpaceStashCore" yields a results page
whose first row displays "Space Stash". -/
def env6 : Env :=
  ⟨fun n => [n, split_by_camel_case n, remove_last_word n],
   fun t => if t = "SpaceStashCore" then
              some ⟨true, some ("Space Stash", "/ws-addons/wildstar/39712-space-stash")⟩
            else none,
   fun _ => some 42⟩

/-- The entry `env6` resolves "SpaceStashCore" to: note its name is the
converted remote display name. -/
def ssAddon : Addon :=
  ⟨"SpaceStash", "http://wildstar.curseforge.com/ws-addons/39712-space-stash",
   "http://wildstar.curseforge.com/ws-addons/39712-space-stash/files/latest", 42⟩

def addonBad : Addon :=
  ⟨"Bad", "http://x/bad", "http://x/bad/files/latest", 7⟩

def addonGood : Addon :=
  ⟨"Good", "http://x/good", "http://x/good/files/latest", 5⟩

def taskBad : Task := ⟨some "Bad", some addonBad⟩

def taskGood : Task := ⟨some "Good", some addonGood⟩

/-- A download oracle for which the archive of `addonBad` is malformed and
every other download succeeds. -/
def dl3 : String → DlResult :=
  fun u => if u = "http://x/bad/files/latest" then DlResult.badZip else DlResult.ok

def cfg0 : ConfigState := ⟨"", [], 0⟩

/-- A one-record store of validly constructed addon records. -/
def storeBar : List (String × AddonJson) :=
  [("Bar", ⟨"Bar", "http://x/bar", 100⟩)]

def cfgW : ConfigState := ⟨"old", storeBar, 3⟩

/-! ## Helper lemmas -/

theorem convert_addon_name_idem (s : String) :
    convert_addon_name (convert_addon_name s) = convert_addon_name s := by
  show String.mk _ = String.mk _
  simp only [convert_addon_name]
  exact congrArg String.mk
    (List.filter_eq_self.mpr fun a ha => (List.mem_filter.mp ha).2)

theorem convert_addon_name_all_alnum (s : String) :
    (convert_addon_name s).data.all isAlnumChar = true := by
  simp only [convert_addon_name, List.all_eq_true]
  exact fun a ha => (List.mem_filter.mp ha).2

theorem camelFragsAux_nil (fuel : Nat) : camelFragsAux fuel [] = [] := by
  cases fuel <;> rfl

theorem camelFragsAux_nil_of_no_capRun :
    ∀ (fuel : Nat) (l : List Char), hasCapRunL l = false →
      camelFragsAux fuel l = [] := by
  intro fuel
  induction fuel with
  | zero => intro l _; rfl
  | succ n ih =>
    intro l h
    match l with
    | [] => rfl
    | [c] =>
      simp only [camelFragsAux]
      split
      · rfl
      · exact camelFragsAux_nil n
    | c :: d :: rest =>
      simp only [hasCapRunL, Bool.or_eq_false_iff, Bool.and_eq_false_iff] at h
      simp only [camelFragsAux]
      split
      · rename_i hup
        rcases h.1 with h1 | h1
        · exact absurd hup (by simp [h1])
        · simp only [h1, if_false]
          exact ih _ h.2
      · exact ih _ h.2

theorem Addon.make_ok {n u : String} {d : Int} {a : Addon}
    (h : Addon.make n u d = Except.ok a) :
    n ≠ "" ∧ u ≠ "" ∧ d ≠ 0 ∧ convert_addon_name n ≠ "" ∧
      a = ⟨convert_addon_name n, u, u ++ ADDON_DL_SUFFIX, d⟩ := by
  unfold Addon.make at h
  split at h
  · exact absurd h (by simp)
  · rename_i hfalsy
    push_neg at hfalsy
    split at h
    · exact absurd h (by simp)
    · rename_i hconv
      refine ⟨hfalsy.1, hfalsy.2.1, hfalsy.2.2, hconv, ?_⟩
      exact (Except.ok.injEq _ _ ▸ h).symm

/-- The `except` clause of `_extract_zipfile` cannot be evaluated: the name
`BadZipFile` is bound neither at module level nor among the builtins. -/
theorem handler_unresolved : exceptClauseNames.all nameResolves = false := by
  decide

theorem extract_zipfile_not_ok {r : DlResult} (h : r ≠ DlResult.ok) :
    extract_zipfile r = (some PyExc.nameError, []) := by
  cases r with
  | ok => exact absurd rfl h
  | badZip => simp [extract_zipfile, tryBlockExc, handler_unresolved]
  | failed => simp [extract_zipfile, tryBlockExc, handler_unresolved]

/-- `_search_request` attempts only the first nonempty term of the iteration
order, and the loop body returns unconditionally after requesting it. -/
theorem searchRequestAux_eq (fetch : String → Option PageData) (name : String)
    (st : SearchState) :
    ∀ order : List String,
      searchRequestAux fetch name st order
        = match order.find? (fun t => !(t == "")) with
          | none => (none, st, [])
          | some t =>
            match fetch t with
            | none => (none, st, [t])
            | some pd =>
              if pd.hasResults then (some pd, st, [t])
              else (none, markNeg st name, [t])
  | [] => rfl
  | t :: ts => by
    by_cases ht : t = ""
    · subst ht
      simp only [searchRequestAux, if_pos rfl, List.find?]
      exact searchRequestAux_eq fetch name st ts
    · have hb : (fun t => !(t == "")) t = true := by
        simp [ht]
      simp only [searchRequestAux, if_neg ht, List.find?, hb]

theorem searchRequestAux_state_of_some
    (fetch : String → Option PageData) (name : String) (st : SearchState)
    (order : List String)
    (h : (searchRequestAux fetch name st order).1.isSome) :
    (searchRequestAux fetch name st order).2.1 = st := by
  rw [searchRequestAux_eq] at h ⊢
  rcases hf : order.find? (fun t => !(t == "")) with _ | t
  · simp [hf] at h ⊢
  · rcases hft : fetch t with _ | pd
    · simp [hf, hft] at h ⊢
    · by_cases hr : pd.hasResults
      · simp [hf, hft, hr]
      · simp [hf, hft, hr] at h ⊢

/-- Every failing path of `_search_online` marks the negative cache with the
searched local name. -/
theorem search_online_none_mem {env : Env} {name : String} {st : SearchState}
    (h : (search_online env name st).addon = none) :
    name ∈ (search_online env name st).state.no_results_found := by
  rcases h1 : searchRequestAux env.fetchSearch name st (env.termOrder name)
    with ⟨page, st1, sreqs⟩
  simp only [search_online, h1] at h ⊢
  rcases page with _ | pd
  · simp [noResult]
  · rcases h2 : pd.firstLink with _ | li
    · simp [h2, noResult]
    · simp only [h2] at h ⊢
      rcases h3 : env.fetchDetail (make_full_url_from li.2) with _ | d
      · simp [h3, noResult]
      · simp only [h3] at h ⊢
        split at h
        · rename_i hcond
          rw [if_pos hcond]
          rcases h4 : Addon.make (convert_addon_name li.1)
            (make_full_url_from li.2) d with e | a
          · simp only [h4] at h ⊢
            simp [noResult]
          · simp only [h4] at h
            simp at h
        · rename_i hcond
          rw [if_neg hcond]
          simp [noResult]

/-- A successful `_search_online` leaves the negative cache and warnings
unchanged and stores the found addon in the positive cache under its own
(converted remote) name. -/
theorem search_online_some {env : Env} {name : String} {st : SearchState}
    {a : Addon} (h : (search_online env name st).addon = some a) :
    (search_online env name st).state
      = { st with retrieved_addons := (a.name, a) :: st.retrieved_addons } := by
  rcases h1 : searchRequestAux env.fetchSearch name st (env.termOrder name)
    with ⟨page, st1, sreqs⟩
  have hst1 : page.isSome → st1 = st := by
    intro hp
    have h5 := searchRequestAux_state_of_some env.fetchSearch name st
      (env.termOrder name) (by rw [h1]; exact hp)
    rw [h1] at h5
    exact h5
  simp only [search_online, h1] at h ⊢
  rcases page with _ | pd
  · simp [noResult] at h
  · have hst1' : st1 = st := hst1 rfl
    subst hst1'
    rcases h2 : pd.firstLink with _ | li
    · simp [h2, noResult] at h
    · simp only [h2] at h ⊢
      rcases h3 : env.fetchDetail (make_full_url_from li.2) with _ | d
      · simp [h3, noResult] at h
      · simp only [h3] at h ⊢
        split at h
        · rename_i hcond
          rw [if_pos hcond]
          rcases h4 : Addon.make (convert_addon_name li.1)
            (make_full_url_from li.2) d with e | a'
          · simp [h4, noResult] at h
          · simp only [h4] at h
            have ha : a' = a := by simpa using h
            subst ha
            have hmk := Addon.make_ok h4
            have hname : convert_addon_name li.1 = a'.name := by
              rw [hmk.2.2.2.2]
              exact (convert_addon_name_idem li.1).symm
            simp only [h4, hname]
        · simp [noResult] at h

/-- `_search_request` never removes a name from the negative cache. -/
theorem searchRequestAux_neg_superset (fetch : String → Option PageData)
    (other name : String) (st : SearchState) (order : List String)
    (h : name ∈ st.no_results_found) :
    name ∈ (searchRequestAux fetch other st order).2.1.no_results_found := by
  rw [searchRequestAux_eq]
  rcases hf : order.find? (fun t => !(t == "")) with _ | t
  · simp only [hf]
    exact h
  · simp only [hf]
    rcases hft : fetch t with _ | pd
    · simp only [hft]
      exact h
    · simp only [hft]
      by_cases hr : pd.hasResults
      · simp only [if_pos hr]
        exact h
      · simp only [if_neg hr, markNeg]
        exact List.mem_cons_of_mem _ h

/-- `_search_online` never removes a name from the negative cache. -/
theorem search_online_neg_superset {env : Env} {other name : String}
    {st : SearchState} (h : name ∈ st.no_results_found) :
    name ∈ (search_online env other st).state.no_results_found := by
  rcases h1 : searchRequestAux env.fetchSearch other st (env.termOrder other)
    with ⟨page, st1, sreqs⟩
  have hneg : name ∈ st1.no_results_found := by
    have h2 := searchRequestAux_neg_superset env.fetchSearch
      other name st (env.termOrder other) h
    rw [h1] at h2
    exact h2
  simp only [search_online, h1]
  rcases page with _ | pd
  · exact List.mem_cons_of_mem _ hneg
  · rcases h2 : pd.firstLink with _ | li
    · simp only [h2, noResult]
      exact List.mem_cons_of_mem _ hneg
    · simp only [h2]
      rcases h3 : env.fetchDetail (make_full_url_from li.2) with _ | d
      · simp only [noResult]
        exact List.mem_cons_of_mem _ hneg
      · simp only
        split
        · rcases h4 : Addon.make (convert_addon_name li.1)
            (make_full_url_from li.2) d with e | a
          · simp only [h4, noResult]
            exact List.mem_cons_of_mem _ hneg
          · simp only [h4]
            exact hneg
        · simp only [noResult]
          exact List.mem_cons_of_mem _ hneg

/-- No `find` call ever removes a name from the negative cache. -/
theorem find_neg_superset {env : Env} {st : SearchState} (other name : String)
    (h : name ∈ st.no_results_found) :
    name ∈ (find env other st).state.no_results_found := by
  by_cases hmem : other ∈ st.no_results_found
  · simp only [find, if_pos hmem]
    exact h
  · simp only [find, if_neg hmem]
    cases hl : st.retrieved_addons.lookup other with
    | some a =>
      simp only
      exact h
    | none =>
      simp only
      exact search_online_neg_superset h

/-- Every failing `find` leaves (or puts) the searched name in the negative
cache of the resulting state. -/
theorem find_none_mem {env : Env} {name : String} {st : SearchState}
    (h : (find env name st).addon = none) :
    name ∈ (find env name st).state.no_results_found := by
  by_cases hmem : name ∈ st.no_results_found
  · simp only [find, if_pos hmem]
    exact hmem
  · simp only [find, if_neg hmem] at h ⊢
    cases hl : st.retrieved_addons.lookup name with
    | some a => simp [hl] at h
    | none =>
      simp only [hl] at h ⊢
      exact search_online_none_mem h

theorem lookup_some_mem {β : Type} {k : String} {v : β} :
    ∀ {l : List (String × β)}, l.lookup k = some v → (k, v) ∈ l := by
  intro l
  induction l with
  | nil => intro h; simp [List.lookup] at h
  | cons p rest ih =>
    intro h
    rcases p with ⟨k', v'⟩
    cases hbeq : (k == k') with
    | true =>
      simp only [List.lookup, hbeq] at h
      have hv : v' = v := by simpa using h
      subst hv
      have hk : k = k' := eq_of_beq hbeq
      subst hk
      exact List.mem_cons_self _ _
    | false =>
      simp only [List.lookup, hbeq] at h
      exact List.mem_cons_of_mem _ (ih h)

theorem mem_lookup_of_nodup {β : Type} {k : String} {v : β} :
    ∀ {l : List (String × β)}, (l.map Prod.fst).Nodup → (k, v) ∈ l →
      l.lookup k = some v := by
  intro l
  induction l with
  | nil => intro _ hm; simp at hm
  | cons p rest ih =>
    intro hn hm
    rcases p with ⟨k', v'⟩
    simp only [List.map_cons, List.nodup_cons] at hn
    rcases List.mem_cons.mp hm with h | h
    · cases h
      simp [List.lookup]
    · have hk : k ≠ k' := by
        intro he
        subst he
        exact hn.1 (List.mem_map.mpr ⟨(k, v), h, rfl⟩)
      have hbeq : (k == k') = false := by simp [hk]
      simp only [List.lookup, hbeq]
      exact ih hn.2 h

theorem lookup_none_of_not_mem_keys {β : Type} {k : String} :
    ∀ {l : List (String × β)}, k ∉ l.map Prod.fst → l.lookup k = none := by
  intro l
  induction l with
  | nil => intro _; rfl
  | cons p rest ih =>
    intro h
    rcases p with ⟨k', v'⟩
    simp only [List.map_cons, List.mem_cons, not_or] at h
    have hbeq : (k == k') = false := by simp [h.1]
    simp only [List.lookup, hbeq]
    exact ih h.2

theorem lookup_isSome_of_mem_keys {β : Type} {k : String} :
    ∀ {l : List (String × β)}, k ∈ l.map Prod.fst → (l.lookup k).isSome := by
  intro l
  induction l with
  | nil => intro h; simp at h
  | cons p rest ih =>
    intro h
    rcases p with ⟨k', v'⟩
    cases hbeq : (k == k') with
    | true => simp [List.lookup, hbeq]
    | false =>
      simp only [List.map_cons, List.mem_cons] at h
      rcases h with h | h
      · exact absurd (by simp [h] : (k == k') = true) (by simp [hbeq])
      · simp only [List.lookup, hbeq]
        exact ih h

/-- Association lookup is invariant under permutation when the keys are
duplicate-free. -/
theorem lookup_eq_of_perm {β : Type} {l l' : List (String × β)}
    (hp : l.Perm l') (hn : (l.map Prod.fst).Nodup) (k : String) :
    l'.lookup k = l.lookup k := by
  have hn' : (l'.map Prod.fst).Nodup := (hp.map Prod.fst).nodup hn
  cases h : l.lookup k with
  | some v =>
    exact mem_lookup_of_nodup hn' (hp.mem_iff.mp (lookup_some_mem h))
  | none =>
    apply lookup_none_of_not_mem_keys
    intro hk
    have hk0 : k ∈ l.map Prod.fst := (hp.map Prod.fst).mem_iff.mpr hk
    have := lookup_isSome_of_mem_keys hk0
    rw [h] at this
    simp at this

/-- Looking up in a value-mapped association list maps the looked-up
value. -/
theorem lookup_map_value {β γ : Type} (f : β → γ) (k : String) :
    ∀ (l : List (String × β)),
      (l.map fun p => (p.1, f p.2)).lookup k = (l.lookup k).map f := by
  intro l
  induction l with
  | nil => rfl
  | cons p rest ih =>
    rcases p with ⟨k2, v⟩
    cases hbeq : (k == k2) with
    | true => simp [List.lookup, hbeq]
    | false => simp [List.lookup, hbeq, ih]

/-! ## Claims -/

/-- C1: the update-decision function `_update_required` returns true iff no
stored record exists, or the stored release timestamp equals the remote one,
or the local directory creation time is strictly earlier than the remote
release timestamp; it returns false in every remaining case. -/
theorem c1_update_policy :
    ∀ (installed : Option Addon) (online : Addon) (ctime : Int),
      update_required installed online ctime = true ↔
        (installed = none ∨
          ∃ a, installed = some a ∧ (a.date = online.date ∨ ctime < online.date)) := by
  intro installed online ctime
  cases installed with
  | none => simp [update_required]
  | some a =>
    simp only [update_required]
    split
    · rename_i h
      simp [h]
    · rename_i h
      split
      · rename_i h2
        simp [h, h2]
      · rename_i h2
        simp [h, h2]

/-- C2 (counterexample): a run of the search worker over the single name
"Foo" enqueues a work item for it, although the update-decision function,
given the stored record for "Foo" (release timestamp 200), the resolved
entry (release timestamp 100) and a local directory creation time of 150,
returns false — the worker never consults the update policy. -/
theorem c2_counterexample :
    (searchRunAux env2 SearchState.empty ["Foo"]).tasks = [("Foo", fooAddon)]
    ∧ update_required (some storedFoo) fooAddon 150 = false := by
  decide

/-- C2 (amended): the search worker enqueues a work item for a name exactly
when resolution of that name succeeded; the enqueued items are precisely the
successful resolution outcomes, in listing order, and no other condition
(in particular not the update policy) is checked. -/
theorem c2_enqueue_iff_resolved :
    ∀ (env : Env) (st : SearchState) (names : List String),
      (searchRunAux env st names).tasks
        = (resolveAll env st names).filterMap
            (fun p => p.2.map fun a => (p.1, a)) := by
  intro env st names
  induction names generalizing st with
  | nil => rfl
  | cons n ns ih =>
    simp only [searchRunAux, resolveAll, List.filterMap_cons]
    cases h : (find env n st).addon with
    | none => simp [h, ih]
    | some a => simp [h, ih]

/-- C3 (counterexample): with a malformed archive for the first task and a
good one for the second, the install worker escapes with `NameError`,
nothing is written to the error log, the second task is left unprocessed,
and the store receives neither record — the error is not logged and the
worker does not continue with the remaining tasks. -/
theorem c3_counterexample :
    (downloaderRun dl3 [taskBad, taskGood] cfg0 [] []).exc = some PyExc.nameError
    ∧ (downloaderRun dl3 [taskBad, taskGood] cfg0 [] []).log = []
    ∧ (downloaderRun dl3 [taskBad, taskGood] cfg0 [] []).remaining = [taskGood]
    ∧ (downloaderRun dl3 [taskBad, taskGood] cfg0 [] []).config.addons.lookup "Good"
        = none
    ∧ (downloaderRun dl3 [taskBad, taskGood] cfg0 [] []).config.addons.lookup "Bad"
        = none := by
  decide

/-- C3 (amended): the store is upserted only after the download-and-extract
step completes without an escaping exception; when the archive payload is
malformed or the download request fails, the exception raised inside
`_extract_zipfile` escapes its handler (whose except clause names the
undefined `BadZipFile`, so evaluating it raises `NameError`), nothing is
logged, the store is unchanged, and the install worker aborts, leaving the
remaining tasks unprocessed. -/
theorem c3_install_worker :
    ∀ (dl : String → DlResult) (t : Task) (ts : List Task)
      (cfg : ConfigState) (msgs lg : List String) (nm : String) (a : Addon),
      t.current_addon = some nm → t.online_addon = some a →
      ((dl a.full_url ≠ DlResult.ok →
          downloaderRun dl (t :: ts) cfg msgs lg
            = ⟨cfg, msgs ++ ["Downloading " ++ a.name ++ "..."], lg,
               some PyExc.nameError, ts⟩)
        ∧ (dl a.full_url = DlResult.ok →
          downloaderRun dl (t :: ts) cfg msgs lg
            = downloaderRun dl ts (update_addon cfg a)
                (msgs ++ ["Downloading " ++ a.name ++ "..."]) lg)) := by
  intro dl t ts cfg msgs lg nm a h1 h2
  constructor
  · intro hbad
    have he := extract_zipfile_not_ok hbad
    simp [downloaderRun, h1, h2, he]
  · intro hok
    have he : extract_zipfile (dl a.full_url) = (none, []) := by
      rw [hok]
      rfl
    simp [downloaderRun, h1, h2, he]

theorem c3_witness :
    taskBad.current_addon = some "Bad"
    ∧ taskBad.online_addon = some addonBad
    ∧ dl3 addonBad.full_url ≠ DlResult.ok
    ∧ downloaderRun dl3 [taskBad, taskGood] cfg0 [] []
        = ⟨cfg0, ["Downloading " ++ addonBad.name ++ "..."], [],
           some PyExc.nameError, [taskGood]⟩ :=
  ⟨rfl, rfl, by decide,
   (c3_install_worker dl3 taskBad [taskGood] cfg0 [] [] "Bad" addonBad rfl rfl).1
     (by decide)⟩

/-- C4 (counterexample): with the iteration order being exactly the claimed
priority (raw name, camel split, drop-last), where the raw term
"SpaceStashCore" yields a no-results page while the camel split
"Space Stash Core" yields a results page, resolution reports not-found after
requesting only the raw term — the remaining search terms are not tried. -/
theorem c4_counterexample :
    env4.termOrder "SpaceStashCore"
      = ["SpaceStashCore", "Space Stash Core", "SpaceStash"]
    ∧ env4.fetchSearch "Space Stash Core"
        = some ⟨true, some ("Space Stash", "/ws-addons/wildstar/39712-space-stash")⟩
    ∧ (find env4 "SpaceStashCore" SearchState.empty).addon = none
    ∧ (find env4 "SpaceStashCore" SearchState.empty).searchReqs
        = ["SpaceStashCore"] := by
  decide

/-- C4 (amended): `_search_request` requests only the first non-empty term
of the set-iteration order and returns unconditionally: a results page is
returned, a no-results page marks the negative cache and returns nothing,
and a failed request returns the absent page — in every case at most one
request is issued and no further term is tried. -/
theorem c4_search_request_first_term :
    ∀ (fetch : String → Option PageData) (name : String) (st : SearchState)
      (order : List String),
      (searchRequestAux fetch name st order
        = match order.find? (fun t => !(t == "")) with
          | none => (none, st, [])
          | some t =>
            match fetch t with
            | none => (none, st, [t])
            | some pd =>
              if pd.hasResults then (some pd, st, [t])
              else (none, markNeg st name, [t]))
      ∧ (searchRequestAux fetch name st order).2.2.length ≤ 1 := by
  intro fetch name st order
  refine ⟨searchRequestAux_eq fetch name st order, ?_⟩
  rw [searchRequestAux_eq]
  rcases order.find? (fun t => !(t == "")) with _ | t
  · simp
  · rcases hft : fetch t with _ | pd
    · simp [hft]
    · by_cases hr : pd.hasResults
      · simp [hft, hr]
      · simp [hft, hr]

/-- C5: a name in the negative cache makes `find` return not-found at once,
with the state unchanged and zero search or detail requests; any failing
`find` leaves the name in the negative cache of the resulting state; and no
intervening `find` of any name ever removes it — so after a resolve of a
name fails once, every later resolve of it performs zero network calls. -/
theorem c5_negative_cache :
    (∀ (env : Env) (st : SearchState) (name : String),
        name ∈ st.no_results_found →
        find env name st = ⟨none, st, [], []⟩)
    ∧ (∀ (env : Env) (st : SearchState) (name : String),
        (find env name st).addon = none →
        name ∈ (find env name st).state.no_results_found
          ∧ find env name ((find env name st).state)
              = ⟨none, (find env name st).state, [], []⟩)
    ∧ (∀ (env : Env) (st : SearchState) (other name : String),
        name ∈ st.no_results_found →
        name ∈ (find env other st).state.no_results_found) := by
  have hpart1 : ∀ (env : Env) (st : SearchState) (name : String),
      name ∈ st.no_results_found → find env name st = ⟨none, st, [], []⟩ := by
    intro env st name hmem
    simp [find, if_pos hmem]
  refine ⟨hpart1, ?_, ?_⟩
  · intro env st name h
    exact ⟨find_none_mem h, hpart1 env _ name (find_none_mem h)⟩
  · intro env st other name h
    exact find_neg_superset other name h

theorem c5_witness :
    ("Foo" ∈ stNeg.no_results_found)
    ∧ find env5 "Foo" stNeg = ⟨none, stNeg, [], []⟩
    ∧ (find env5 "Bar" SearchState.empty).addon = none
    ∧ ("Bar" ∈ (find env5 "Bar" SearchState.empty).state.no_results_found
        ∧ find env5 "Bar" ((find env5 "Bar" SearchState.empty).state)
            = ⟨none, (find env5 "Bar" SearchState.empty).state, [], []⟩)
    ∧ "Foo" ∈ (find env5 "Baz" stNeg).state.no_results_found :=
  ⟨by decide, c5_negative_cache.1 env5 stNeg "Foo" (by decide), by decide,
   c5_negative_cache.2.1 env5 SearchState.empty "Bar" (by decide),
   c5_negative_cache.2.2 env5 stNeg "Baz" "Foo" (by decide)⟩

/-- C6 (counterexample): resolving "SpaceStashCore" succeeds with an entry
named "SpaceStash" (the converted remote display name), but the positive
cache has no entry under the local name "SpaceStashCore", and a second
resolve of the same local name issues a network search request again. -/
theorem c6_counterexample :
    (find env6 "SpaceStashCore" SearchState.empty).addon = some ssAddon
    ∧ (find env6 "SpaceStashCore" SearchState.empty).state.retrieved_addons.lookup
        "SpaceStashCore" = none
    ∧ (find env6 "SpaceStashCore"
        ((find env6 "SpaceStashCore" SearchState.empty).state)).searchReqs = ["SpaceStashCore"] := by
  decide

/-- C6 (amended): a successful resolve stores the entry in the positive
cache under the entry's own (converted remote) name — not necessarily the
local name — and preserves the cache-key invariant; only when the local name
equals that converted remote name does a second resolve of it return the
cached equal entry with zero network requests. -/
theorem c6_positive_cache :
    ∀ (env : Env) (st : SearchState) (name : String) (a : Addon),
      StateWF st → (find env name st).addon = some a →
      ((find env name st).state.retrieved_addons.lookup a.name = some a
        ∧ StateWF (find env name st).state
        ∧ (name = a.name →
            find env name ((find env name st).state)
              = ⟨some a, (find env name st).state, [], []⟩)) := by
  intro env st name a hwf h
  by_cases hmem : name ∈ st.no_results_found
  · simp [find, if_pos hmem] at h
  · cases hl : st.retrieved_addons.lookup name with
    | some a0 =>
      have hr : find env name st = ⟨some a0, st, [], []⟩ := by
        simp [find, if_neg hmem, hl]
      have ha : a0 = a := by
        rw [hr] at h
        simpa using h
      subst ha
      have hmeml : (name, a0) ∈ st.retrieved_addons := lookup_some_mem hl
      have hkey : name = a0.name := hwf _ hmeml
      rw [hr]
      refine ⟨?_, hwf, ?_⟩
      · show st.retrieved_addons.lookup a0.name = some a0
        rw [← hkey]
        exact hl
      · intro _
        show find env name st = ⟨some a0, st, [], []⟩
        simp [find, if_neg hmem, hl]
    | none =>
      have hr : find env name st = search_online env name st := by
        simp [find, if_neg hmem, hl]
      rw [hr] at h ⊢
      have hstate := search_online_some h
      rw [hstate]
      refine ⟨?_, ?_, ?_⟩
      · show ((a.name, a) :: st.retrieved_addons).lookup a.name = some a
        simp [List.lookup]
      · intro p hp
        rcases List.mem_cons.mp hp with h1 | h1
        · rw [h1]
        · exact hwf p h1
      · intro hne
        have hlook : ((a.name, a) :: st.retrieved_addons).lookup name = some a := by
          rw [hne]
          simp [List.lookup]
        show find env name { st with
            retrieved_addons := (a.name, a) :: st.retrieved_addons } = _
        simp [find, if_neg hmem, hlook]

theorem c6_witness :
    StateWF SearchState.empty
    ∧ (find env2 "Foo" SearchState.empty).addon = some fooAddon
    ∧ ((find env2 "Foo" SearchState.empty).state.retrieved_addons.lookup
          fooAddon.name = some fooAddon
        ∧ StateWF (find env2 "Foo" SearchState.empty).state
        ∧ ("Foo" = fooAddon.name →
            find env2 "Foo" ((find env2 "Foo" SearchState.empty).state)
              = ⟨some fooAddon, (find env2 "Foo" SearchState.empty).state, [], []⟩)) :=
  ⟨by decide, by decide,
   c6_positive_cache env2 SearchState.empty "Foo" fooAddon (by decide) (by decide)⟩

/-- C7 (counterexample): the drop-last-fragment term for "SpaceStashCore" is
"SpaceStash" (the remaining fragments are joined by the empty string), not
"Space Stash" as claimed. -/
theorem c7_counterexample :
    remove_last_word "SpaceStashCore" = "SpaceStash"
    ∧ remove_last_word "SpaceStashCore" ≠ "Space Stash" := by
  decide

/-- C7 (amended): the camel-case split of "SpaceStashCore" is
"Space Stash Core"; the drop-last-fragment term is the remaining fragments
joined without separators, "SpaceStash"; a name with no
capital-letter-initiated run of alphanumerics yields the empty string for
both derived terms; and every term actually requested by `_search_request`
is nonempty (empty terms are skipped). -/
theorem c7_derived_terms :
    split_by_camel_case "SpaceStashCore" = "Space Stash Core"
    ∧ remove_last_word "SpaceStashCore" = "SpaceStash"
    ∧ (∀ s : String, hasCapRunL s.data = false →
        split_by_camel_case s = "" ∧ remove_last_word s = "")
    ∧ (∀ (fetch : String → Option PageData) (name : String) (st : SearchState)
        (order : List String),
        ((searchRequestAux fetch name st order).2.2.all fun t => !(t == ""))
          = true) := by
  refine ⟨by decide, by decide, ?_, ?_⟩
  · intro s h
    have hfr : camelFrags s = [] :=
      camelFragsAux_nil_of_no_capRun _ _ h
    constructor
    · simp [split_by_camel_case, hfr, joinSep]
    · simp [remove_last_word, hfr, joinSep]
  · intro fetch name st order
    rw [searchRequestAux_eq]
    rcases hf : order.find? (fun t => !(t == "")) with _ | t
    · rfl
    · have hne : t ≠ "" := by simpa using List.find?_some hf
      rcases hft : fetch t with _ | pd
      · simp [hft, hne]
      · by_cases hr : pd.hasResults
        · simp [hft, hr, hne]
        · simp [hft, hr, hne]

theorem c7_witness :
    hasCapRunL ("abc123" : String).data = false
    ∧ (split_by_camel_case "abc123" = "" ∧ remove_last_word "abc123" = "") :=
  ⟨by decide, c7_derived_terms.2.2.1 "abc123" (by decide)⟩

/-- C8: `Addon` construction fails whenever the name, the url or the
timestamp is empty/zero, and whenever the name normalizes to the empty
string; every successfully constructed record carries the input name with
all non-alphanumeric characters stripped, which is nonempty and consists
solely of alphanumerics. -/
theorem c8_addon_construction :
    (∀ (n u : String) (d : Int), (n = "" ∨ u = "" ∨ d = 0) →
        isErr (Addon.make n u d) = true)
    ∧ (∀ (n u : String) (d : Int), convert_addon_name n = "" →
        isErr (Addon.make n u d) = true)
    ∧ (∀ (n u : String) (d : Int) (a : Addon), Addon.make n u d = Except.ok a →
        a.name = convert_addon_name n ∧ a.name ≠ ""
          ∧ a.name.data.all isAlnumChar = true) := by
  refine ⟨?_, ?_, ?_⟩
  · intro n u d h
    unfold Addon.make
    rw [if_pos h]
    rfl
  · intro n u d h
    by_cases h1 : (n = "" ∨ u = "" ∨ d = 0)
    · unfold Addon.make
      rw [if_pos h1]
      rfl
    · unfold Addon.make
      rw [if_neg h1, if_pos h]
      rfl
  · intro n u d a h
    obtain ⟨hn, hu, hd, hc, ha⟩ := Addon.make_ok h
    subst ha
    exact ⟨rfl, hc, convert_addon_name_all_alnum n⟩

theorem c8_witness :
    (("" : String) = "" ∨ ("u" : String) = "" ∨ (5 : Int) = 0)
    ∧ isErr (Addon.make "" "u" 5) = true
    ∧ convert_addon_name "!!!" = ""
    ∧ isErr (Addon.make "!!!" "u" 5) = true
    ∧ Addon.make "A1b!" "u" 5
        = Except.ok ⟨"A1b", "u", "u" ++ ADDON_DL_SUFFIX, 5⟩
    ∧ ((⟨"A1b", "u", "u" ++ ADDON_DL_SUFFIX, 5⟩ : Addon).name
          = convert_addon_name "A1b!"
        ∧ (⟨"A1b", "u", "u" ++ ADDON_DL_SUFFIX, 5⟩ : Addon).name ≠ ""
        ∧ (⟨"A1b", "u", "u" ++ ADDON_DL_SUFFIX, 5⟩ : Addon).name.data.all
            isAlnumChar = true) :=
  ⟨Or.inl rfl,
   c8_addon_construction.1 "" "u" 5 (Or.inl rfl),
   by decide,
   c8_addon_construction.2.1 "!!!" "u" 5 (by decide),
   by rfl,
   c8_addon_construction.2.2 "A1b!" "u" 5 ⟨"A1b", "u", "u" ++ ADDON_DL_SUFFIX, 5⟩
     (by rfl)⟩

/-- C9: records produced by a valid construction satisfy the stored-record
well-formedness; for every store of such records, the persisted document is
a permutation of the store (serialization sorts the keys, deterministically),
every record reloads through `JsonAddon` to an addon with the url and the
timestamp preserved exactly and the name unchanged (normalization is
idempotent), and the reloaded mapping agrees with the original on every
key. -/
theorem c9_round_trip :
    (∀ (n u : String) (d : Int) (a : Addon),
        Addon.make n u d = Except.ok a → (a.to_json).wf)
    ∧ ∀ (addons : List (String × AddonJson)),
        (∀ p ∈ addons, (p.2).wf) →
        ((encodeAddons addons).Perm addons
          ∧ (∀ p ∈ addons,
              JsonAddon p.2
                = Except.ok ⟨p.2.name, p.2.url, p.2.url ++ ADDON_DL_SUFFIX,
                    p.2.date⟩)
          ∧ ((addons.map Prod.fst).Nodup →
              ∀ k, (get_addons (encodeAddons addons)).lookup k
                    = (get_addons addons).lookup k
                ∧ (encodeAddons addons).lookup k = addons.lookup k)) := by
  constructor
  · intro n u d a h
    obtain ⟨hn, hu, hd, hc, ha⟩ := Addon.make_ok h
    subst ha
    exact ⟨hc, hu, hd, convert_addon_name_idem n⟩
  · intro addons hwf
    refine ⟨List.perm_insertionSort keyLE addons, ?_, ?_⟩
    · intro p hp
      obtain ⟨hn, hu, hd, hc⟩ := hwf p hp
      have h1 : ¬(p.2.name = "" ∨ p.2.url = "" ∨ p.2.date = 0) := by
        simp [hn, hu, hd]
      have h2 : ¬(convert_addon_name p.2.name = "") := by
        rw [hc]
        exact hn
      unfold JsonAddon Addon.make
      rw [if_neg h1, if_neg h2, hc]
    · intro hnodup k
      have hl : (encodeAddons addons).lookup k = addons.lookup k :=
        lookup_eq_of_perm (List.perm_insertionSort keyLE addons).symm hnodup k
      refine ⟨?_, hl⟩
      show ((encodeAddons addons).map fun p => (p.1, JsonAddon p.2)).lookup k
        = (addons.map fun p => (p.1, JsonAddon p.2)).lookup k
      rw [lookup_map_value, lookup_map_value, hl]

theorem c9_witness :
    (∀ p ∈ storeBar, (p.2).wf)
    ∧ ((encodeAddons storeBar).Perm storeBar
        ∧ (∀ p ∈ storeBar,
            JsonAddon p.2
              = Except.ok ⟨p.2.name, p.2.url, p.2.url ++ ADDON_DL_SUFFIX,
                  p.2.date⟩)
        ∧ ((storeBar.map Prod.fst).Nodup →
            ∀ k, (get_addons (encodeAddons storeBar)).lookup k
                  = (get_addons storeBar).lookup k
              ∧ (encodeAddons storeBar).lookup k = storeBar.lookup k)) :=
  ⟨by decide, c9_round_trip.2 storeBar (by decide)⟩

/-- C10: `update_directory` with the empty string leaves the whole config
unchanged and flushes nothing to durable storage; with a nonempty string it
changes only the install-directory field (plus one flush), leaving the
addons mapping untouched. -/
theorem c10_update_directory_frame :
    (∀ cfg : ConfigState, update_directory cfg "" = cfg)
    ∧ (∀ (cfg : ConfigState) (d : String), d ≠ "" →
        update_directory cfg d = ⟨d, cfg.addons, cfg.writes + 1⟩) := by
  constructor
  · intro cfg
    rfl
  · intro cfg d hd
    simp [update_directory, hd]

theorem c10_witness :
    update_directory cfgW "" = cfgW
    ∧ ("new" : String) ≠ ""
    ∧ update_directory cfgW "new" = ⟨"new", cfgW.addons, cfgW.writes + 1⟩ :=
  ⟨c10_update_directory_frame.1 cfgW, by decide,
   c10_update_directory_frame.2 cfgW "new" (by decide)⟩

end WSAU
